import Mathlib

/-!
Verification of the holdings-overlap engine of the mutual-fund comparison
tool (`src/app.py`).

The program has two components with real logic:

* `get_holdings_from_moneycontrol` — fetches a fund page, parses it, and
  extracts the holdings list from the fifth `<table>` (first cell of each
  data row, whitespace-stripped).  Network errors, bad statuses and missing
  tables are downgraded to an empty result plus a signalled warning.
* `compare_multiple_funds` — given the holdings sequences, discards empty
  ones, computes the "appears in at least one other fund" overlap
  percentage, classifies it into a diversification tier, and lists the
  stocks shared by two or more funds.

Strings are modelled as `List Char`; Python set values become `Finset`;
Python float arithmetic on the overlap percentage is modelled exactly over
`ℚ` (the algorithmic content of the spec is about the exact formula).
-/

namespace MF

/-- Stock names (and HTML cell texts) are strings, modelled as `List Char`. -/
abbrev StockName := List Char

/-- The whitespace characters removed by Python's `str.strip()`
(ASCII fragment: space, tab, newline, carriage return, vertical tab,
form feed). -/
def isSpaceChar (c : Char) : Bool :=
  c = ' ' || c = '\t' || c = '\n' || c = '\r' || c = '\x0b' || c = '\x0c'

/-- Python's `s.strip()`: remove leading and trailing whitespace. -/
def pyStrip (s : List Char) : List Char :=
  ((s.dropWhile isSpaceChar).reverse.dropWhile isSpaceChar).reverse

/-- Union of a list of finite sets (the value accumulated by repeated
`set.update`, and the set of distinct stocks of a list of sets). -/
def unionList (l : List (Finset StockName)) : Finset StockName :=
  l.foldr (· ∪ ·) ∅

/-! ## The overlap engine (`compare_multiple_funds`, src/app.py lines 114-183) -/

/-- `stock_sets = [set(f["stocks"]) for f in fund_data if f["stocks"]]`:
keep the funds whose holdings sequence is non-empty, as sets. -/
def stockSets (funds : List (List StockName)) : List (Finset StockName) :=
  (funds.filter (fun l => !l.isEmpty)).map List.toFinset

/-- `other_sets = stock_sets[:i] + stock_sets[i+1:]`. -/
def otherSets (sets : List (Finset StockName)) (i : Nat) : List (Finset StockName) :=
  sets.take i ++ sets.drop (i + 1)

/-- The inner loop of the numerator computation:
`overlapping_stocks = set(); for other in other_sets:
overlapping_stocks.update(fund_set & other)`. -/
def overlappingStocks (s : Finset StockName) (others : List (Finset StockName)) :
    Finset StockName :=
  others.foldl (fun acc o => acc ∪ s ∩ o) ∅

/-- `numerator`: for each index `i`, add the size of the overlap of
`stock_sets[i]` with the union of intersections against every other set. -/
def numerator (sets : List (Finset StockName)) : Nat :=
  (List.range sets.length).foldl
    (fun acc i => acc + (overlappingStocks (sets.getD i ∅) (otherSets sets i)).card) 0

/-- `denominator`: total size of all retained holding sets. -/
def denominator (sets : List (Finset StockName)) : Nat :=
  sets.foldl (fun acc s => acc + s.card) 0

/-- `overlap_pct = (numerator / denominator) * 100 if denominator > 0 else 0`,
over exact rationals. -/
def overlapPct (n d : Nat) : ℚ :=
  if 0 < d then ((n : ℚ) / (d : ℚ)) * 100 else 0

/-- The diversification tier: `>= 40` is "Low", `>= 20` is "Medium",
otherwise "High" (src/app.py lines 135-140). -/
def tierOf (p : ℚ) : String :=
  if p ≥ 40 then "Low" else if p ≥ 20 then "Medium" else "High"

/-- `all_stocks = [stock for s in stock_sets for stock in s]`: the
concatenation of the retained sets (each set contributes each of its
elements once; iteration order is irrelevant to the counts taken of it),
as the multiset of its elements. -/
def allStocks (sets : List (Finset StockName)) : Multiset StockName :=
  (sets.map Finset.val).sum

/-- `common_stocks = [s.strip() for s, count in Counter(all_stocks).items()
if count > 1 and s.strip()]`, as the set it denotes: stocks occurring in at
least two sets, whose stripped form is non-empty, reported stripped. -/
def commonStocks (sets : List (Finset StockName)) : Finset StockName :=
  ((unionList sets).filter
    (fun s => 1 < (allStocks sets).count s ∧ pyStrip s ≠ [])).image pyStrip

/-- The report produced by a successful comparison. -/
structure OverlapReport where
  overlap_percent : ℚ
  tier : String
  shared_stocks : Finset StockName
deriving DecidableEq

/-- Outcome of `compare_multiple_funds`: either the insufficient-data
warning ("Could not fetch enough fund data to compare.", an early return
with no report) or a report. -/
inductive CompareResult
  | insufficientData
  | report (r : OverlapReport)
deriving DecidableEq

/-- The comparison engine (src/app.py lines 114-183), from the
fund-name → holdings-sequence mapping (in mapping order). -/
def compare_multiple_funds (funds : List (List StockName)) : CompareResult :=
  let sets := stockSets funds
  if sets.length < 2 then .insufficientData
  else
    let pct := overlapPct (numerator sets) (denominator sets)
    .report ⟨pct, tierOf pct, commonStocks sets⟩

/-! ## The fetcher (`get_holdings_from_moneycontrol`, src/app.py lines 55-74) -/

/-- An HTML table: a list of rows, each row a list of cell texts. -/
abbrev HtmlTable := List (List StockName)

/-- The outcome of `requests.get`: either a transport-level failure
(exception) or a response with an HTTP status code and a parsed body,
abstracted as its list of `<table>` elements in document order. -/
inductive HttpResponse
  | failure (cause : String)
  | success (status : Nat) (tables : List HtmlTable)
deriving DecidableEq

/-- What the fetch signals: `st.error` on a fetch failure (carrying the
cause), `st.warning "Expected portfolio table not found."` when fewer than
five tables are present, or the extracted holdings. -/
inductive FetchOutcome
  | fetchError (cause : String)
  | schemaError
  | ok (holdings : List StockName)
deriving DecidableEq

/-- Whether an outcome is a signalled `FetchError`. -/
def isFetchErrorB : FetchOutcome → Bool
  | .fetchError _ => true
  | _ => false

/-- The parsing step: `tables = soup.find_all("table")`; if fewer than 5,
warn and return `[]`; otherwise take `tables[4]`, drop the header row, and
collect the stripped text of the first cell of every row that has a cell. -/
def parseTables (tables : List HtmlTable) : FetchOutcome :=
  if tables.length < 5 then .schemaError
  else .ok (((tables.getD 4 []).drop 1).filterMap
    (fun row => match row with
      | [] => none
      | c :: _ => some (pyStrip c)))

/-- `get_holdings_from_moneycontrol`: `response.raise_for_status()` raises
(for a 4xx or 5xx status) inside the `try`, so both transport failures and
such statuses land in the `except` branch, which shows the error and
returns `[]`; otherwise the body is parsed. -/
def get_holdings_from_moneycontrol (resp : HttpResponse) : FetchOutcome :=
  match resp with
  | .failure c => .fetchError c
  | .success status tables =>
      if 400 ≤ status ∧ status < 600
      then .fetchError ("HTTP error " ++ toString status)
      else parseTables tables

/-- The sequence the Python function actually returns: the holdings on
success, and `[]` on either error (both error branches `return []`). -/
def fetchedHoldings (resp : HttpResponse) : List StockName :=
  match get_holdings_from_moneycontrol resp with
  | .ok hs => hs
  | _ => []

/-- The fetch-then-compare pipeline of `compare_multiple_funds` lines
107-112: each selected fund's URL is fetched and its returned holdings
sequence (empty on failure) feeds the engine. -/
def compareFromResponses (resps : List HttpResponse) : CompareResult :=
  compare_multiple_funds (resps.map fetchedHoldings)

/-! ## Auxiliary definitions for the proofs -/

/-- Left-to-right recursion computing the numerator, carrying the union of
the already-processed sets; used to prove permutation invariance. -/
def numerAux (acc : Finset StockName) : List (Finset StockName) → Nat
  | [] => 0
  | s :: rest => (s ∩ (acc ∪ unionList rest)).card + numerAux (acc ∪ s) rest

/-- The spec's per-fund overlap set, written as the spec writes it:
`O_i = union over other funds j of (S_i ∩ S_j)`. -/
def specOverlap (sets : List (Finset StockName)) (i : Nat) : Finset StockName :=
  unionList ((otherSets sets i).map (fun t => (sets.getD i ∅) ∩ t))

/-- The spec's numerator: `numerator = sum over i of the size of O_i`. -/
def specNumerator (sets : List (Finset StockName)) : Nat :=
  ((List.range sets.length).map (fun i => (specOverlap sets i).card)).sum

/-! ## Concrete sample data (the spec's end-to-end example and variants) -/

/-- Fund A of the spec's end-to-end example: `{X, Y, Z}`. -/
def sampleA : List StockName := [['X'], ['Y'], ['Z']]

/-- Fund B of the spec's end-to-end example: `{Y, Z, W}`. -/
def sampleB : List StockName := [['Y'], ['Z'], ['W']]

/-- Fund C of the spec's end-to-end example: `{Z, Q, R}`. -/
def sampleC : List StockName := [['Z'], ['Q'], ['R']]

/-- The three sample funds in order. -/
def sampleFunds : List (List StockName) := [sampleA, sampleB, sampleC]

/-- The report the engine produces on `sampleFunds`:
numerator 5, denominator 9, overlap 500/9 ≈ 55.56, tier "Low",
shared stocks `{Y, Z}`. -/
def sampleReport : OverlapReport :=
  ⟨(500 : ℚ) / 9, "Low", {['Y'], ['Z']}⟩

/-- A pair of funds both holding only the whitespace-only stock name " ". -/
def blankFunds : List (List StockName) := [[[' ']], [[' ']]]

/-- A response body with five tables whose fifth table holds a header row
and two data rows naming stocks A and B. -/
def sampleTables : List HtmlTable :=
  [[], [], [], [], [[['h']], [['A']], [['B']]]]

/-- Responses: one failed fetch and two successful ones. -/
def sampleResponses : List HttpResponse :=
  [.failure "connection refused", .success 200 sampleTables, .success 200 sampleTables]

/-! ## Lemmas about `pyStrip` -/

theorem dropWhile_fix (p : Char → Bool) (l : List Char) :
    (l.dropWhile p).dropWhile p = l.dropWhile p := by
  induction l with
  | nil => rfl
  | cons x t ih =>
    cases hpx : p x
    · simp [List.dropWhile_cons, hpx]
    · simp [List.dropWhile_cons, hpx, ih]

theorem dropWhile_eq_drop (p : Char → Bool) (l : List Char) :
    ∃ k, l.dropWhile p = l.drop k := by
  induction l with
  | nil => exact ⟨0, rfl⟩
  | cons x t ih =>
    cases hpx : p x
    · exact ⟨0, by simp [List.dropWhile_cons, hpx]⟩
    · obtain ⟨k, hk⟩ := ih
      exact ⟨k + 1, by simp [List.dropWhile_cons, hpx, hk]⟩

theorem dropWhile_length_le (p : Char → Bool) (l : List Char) :
    (l.dropWhile p).length ≤ l.length := by
  induction l with
  | nil => simp
  | cons x t ih =>
    cases hpx : p x
    · simp [List.dropWhile_cons, hpx]
    · simp only [List.dropWhile_cons, hpx, if_true]
      calc (t.dropWhile p).length ≤ t.length := ih
        _ ≤ (x :: t).length := by simp

theorem dropWhile_take (p : Char → Bool) (l : List Char) (n : Nat)
    (h : l.dropWhile p = l) : (l.take n).dropWhile p = l.take n := by
  cases l with
  | nil => simp
  | cons x t =>
    cases n with
    | zero => simp
    | succ m =>
      have hpx : p x = false := by
        cases hpx : p x
        · rfl
        · exfalso
          rw [List.dropWhile_cons_of_pos hpx] at h
          have hlen := dropWhile_length_le p t
          rw [h] at hlen
          simp at hlen
      simp [List.dropWhile_cons, hpx]

theorem dropWhile_reverse_dropWhile_reverse_fix (p : Char → Bool) (m : List Char)
    (h : m.dropWhile p = m) :
    ((m.reverse.dropWhile p).reverse).dropWhile p = (m.reverse.dropWhile p).reverse := by
  obtain ⟨k, hk⟩ := dropWhile_eq_drop p m.reverse
  rw [hk, List.reverse_drop, List.reverse_reverse]
  exact dropWhile_take p m _ h

theorem pyStrip_idem (s : List Char) : pyStrip (pyStrip s) = pyStrip s := by
  have hufix : (s.dropWhile isSpaceChar).dropWhile isSpaceChar
      = s.dropWhile isSpaceChar := dropWhile_fix _ _
  have h1 : (pyStrip s).dropWhile isSpaceChar = pyStrip s :=
    dropWhile_reverse_dropWhile_reverse_fix _ _ hufix
  show pyStrip (pyStrip s) = pyStrip s
  unfold pyStrip
  rw [show pyStrip s = ((s.dropWhile isSpaceChar).reverse.dropWhile isSpaceChar).reverse
        from rfl] at h1
  rw [h1, List.reverse_reverse, dropWhile_fix]

/-! ## Lemmas about `unionList` -/

@[simp] theorem unionList_nil : unionList [] = ∅ := rfl

@[simp] theorem unionList_cons (s : Finset StockName) (l : List (Finset StockName)) :
    unionList (s :: l) = s ∪ unionList l := rfl

theorem mem_unionList {x : StockName} {l : List (Finset StockName)} :
    x ∈ unionList l ↔ ∃ s ∈ l, x ∈ s := by
  induction l with
  | nil => simp
  | cons a t ih => simp [ih]

theorem unionList_perm {l₁ l₂ : List (Finset StockName)} (h : l₁.Perm l₂) :
    unionList l₁ = unionList l₂ := by
  induction h with
  | nil => rfl
  | cons x _ ih => simp [ih]
  | swap x y l => simp [Finset.union_left_comm]
  | trans _ _ ih1 ih2 => exact ih1.trans ih2

theorem unionList_map_inter (s : Finset StockName) (l : List (Finset StockName)) :
    unionList (l.map (fun t => s ∩ t)) = s ∩ unionList l := by
  induction l with
  | nil => simp
  | cons a t ih => simp [ih, Finset.inter_union_distrib_left]

/-! ## Fold-to-sum lemmas -/

theorem foldl_union_eq (s : Finset StockName) (others : List (Finset StockName))
    (acc : Finset StockName) :
    others.foldl (fun a o => a ∪ s ∩ o) acc = acc ∪ s ∩ unionList others := by
  induction others generalizing acc with
  | nil => simp
  | cons o t ih =>
    simp only [List.foldl_cons, ih, unionList_cons, Finset.inter_union_distrib_left,
      Finset.union_assoc]

theorem overlappingStocks_eq (s : Finset StockName) (others : List (Finset StockName)) :
    overlappingStocks s others = s ∩ unionList others := by
  simp [overlappingStocks, foldl_union_eq]

theorem foldl_add_eq {α : Type} (g : α → Nat) (l : List α) (acc : Nat) :
    l.foldl (fun a i => a + g i) acc = acc + (l.map g).sum := by
  induction l generalizing acc with
  | nil => simp
  | cons x t ih => simp [ih, Nat.add_assoc]

theorem numerator_eq (sets : List (Finset StockName)) :
    numerator sets = ((List.range sets.length).map
      (fun i => ((sets.getD i ∅) ∩ unionList (otherSets sets i)).card)).sum := by
  simp [numerator, foldl_add_eq, overlappingStocks_eq]

theorem denominator_eq (sets : List (Finset StockName)) :
    denominator sets = (sets.map Finset.card).sum := by
  simp [denominator, foldl_add_eq]

/-! ## Permutation invariance of the numerator and denominator -/

theorem numerAux_eq_sum (sets : List (Finset StockName)) :
    ∀ acc, numerAux acc sets = ((List.range sets.length).map
      (fun i => ((sets.getD i ∅) ∩ (acc ∪ unionList (otherSets sets i))).card)).sum := by
  induction sets with
  | nil => intro acc; simp [numerAux]
  | cons s rest ih =>
    intro acc
    rw [numerAux, ih (acc ∪ s)]
    rw [List.length_cons, List.range_succ_eq_map]
    rw [List.map_cons, List.sum_cons, List.map_map]
    congr 1
    apply congrArg
    apply List.map_congr_left
    intro i _
    simp [otherSets, Function.comp, Finset.union_assoc]

theorem numerator_eq_numerAux (sets : List (Finset StockName)) :
    numerator sets = numerAux ∅ sets := by
  rw [numerator_eq, numerAux_eq_sum]
  simp

theorem numerAux_perm {l₁ l₂ : List (Finset StockName)} (h : l₁.Perm l₂) :
    ∀ acc, numerAux acc l₁ = numerAux acc l₂ := by
  induction h with
  | nil => intro acc; rfl
  | cons x h ih =>
    intro acc
    simp only [numerAux]
    rw [unionList_perm h, ih]
  | swap x y l =>
    intro acc
    simp only [numerAux, unionList_cons]
    have hacc : acc ∪ y ∪ x = acc ∪ x ∪ y := by
      rw [Finset.union_assoc, Finset.union_assoc, Finset.union_comm y x]
    have e1 : acc ∪ (x ∪ unionList l) = acc ∪ x ∪ unionList l :=
      (Finset.union_assoc _ _ _).symm
    have e2 : acc ∪ (y ∪ unionList l) = acc ∪ y ∪ unionList l :=
      (Finset.union_assoc _ _ _).symm
    rw [hacc, e1, e2]
    omega
  | trans _ _ ih1 ih2 =>
    intro acc
    exact (ih1 acc).trans (ih2 acc)

theorem numerator_perm {l₁ l₂ : List (Finset StockName)} (h : l₁.Perm l₂) :
    numerator l₁ = numerator l₂ := by
  rw [numerator_eq_numerAux, numerator_eq_numerAux]
  exact numerAux_perm h ∅

theorem denominator_perm {l₁ l₂ : List (Finset StockName)} (h : l₁.Perm l₂) :
    denominator l₁ = denominator l₂ := by
  rw [denominator_eq, denominator_eq]
  exact (h.map Finset.card).sum_eq

/-! ## Lemmas about `allStocks` and `commonStocks` -/

theorem allStocks_perm {l₁ l₂ : List (Finset StockName)} (h : l₁.Perm l₂) :
    allStocks l₁ = allStocks l₂ := by
  unfold allStocks
  exact (h.map Finset.val).sum_eq

theorem commonStocks_perm {l₁ l₂ : List (Finset StockName)} (h : l₁.Perm l₂) :
    commonStocks l₁ = commonStocks l₂ := by
  unfold commonStocks
  simp only [unionList_perm h, allStocks_perm h]

theorem mem_unionList_iff_count {sets : List (Finset StockName)} {s : StockName} :
    s ∈ unionList sets ↔ 0 < (allStocks sets).count s := by
  induction sets with
  | nil => simp [allStocks]
  | cons S t ih =>
    have hsum : (allStocks (S :: t)).count s = S.val.count s + (allStocks t).count s := by
      simp [allStocks, Multiset.count_add]
    by_cases hS : s ∈ S
    · have h1 : S.val.count s = 1 :=
        Multiset.count_eq_one_of_mem S.nodup hS
      simp only [unionList_cons, Finset.mem_union, hsum, h1]
      constructor
      · intro _; omega
      · intro _; exact Or.inl hS
    · have h0 : S.val.count s = 0 :=
        Multiset.count_eq_zero_of_not_mem hS
      simp only [unionList_cons, Finset.mem_union, hsum, h0, Nat.zero_add]
      rw [← ih]
      constructor
      · intro h; cases h with
        | inl h => exact absurd h hS
        | inr h => exact h
      · exact Or.inr

theorem mem_commonStocks {sets : List (Finset StockName)} {x : StockName} :
    x ∈ commonStocks sets ↔
      ∃ s, 1 < (allStocks sets).count s ∧ pyStrip s ≠ [] ∧ pyStrip s = x := by
  unfold commonStocks
  simp only [Finset.mem_image, Finset.mem_filter]
  constructor
  · rintro ⟨s, ⟨_, hc, hne⟩, hx⟩
    exact ⟨s, hc, hne, hx⟩
  · rintro ⟨s, hc, hne, hx⟩
    refine ⟨s, ⟨?_, hc, hne⟩, hx⟩
    exact mem_unionList_iff_count.mpr (by omega)

/-! ## Lemmas about `stockSets` and `compare_multiple_funds` -/

theorem stockSets_nonempty {funds : List (List StockName)} {S : Finset StockName}
    (hS : S ∈ stockSets funds) : S.Nonempty := by
  unfold stockSets at hS
  rw [List.mem_map] at hS
  obtain ⟨l, hl, rfl⟩ := hS
  rw [List.mem_filter] at hl
  cases l with
  | nil => simp at hl
  | cons a t => exact ⟨a, by simp⟩

theorem denominator_pos {sets : List (Finset StockName)}
    (hlen : 1 ≤ sets.length) (hne : ∀ S ∈ sets, S.Nonempty) :
    0 < denominator sets := by
  rw [denominator_eq]
  cases sets with
  | nil => simp at hlen
  | cons S t =>
    have hc : 0 < S.card := Finset.card_pos.mpr (hne S (by simp))
    simp only [List.map_cons, List.sum_cons]
    omega

theorem compare_eq_report {funds : List (List StockName)}
    (h : 2 ≤ (stockSets funds).length) :
    compare_multiple_funds funds = .report
      ⟨overlapPct (numerator (stockSets funds)) (denominator (stockSets funds)),
       tierOf (overlapPct (numerator (stockSets funds)) (denominator (stockSets funds))),
       commonStocks (stockSets funds)⟩ := by
  unfold compare_multiple_funds
  rw [if_neg (by omega)]

theorem compare_insufficient {funds : List (List StockName)}
    (h : (stockSets funds).length < 2) :
    compare_multiple_funds funds = .insufficientData := by
  unfold compare_multiple_funds
  rw [if_pos h]

theorem compare_report_inv {funds : List (List StockName)} {r : OverlapReport}
    (h : compare_multiple_funds funds = .report r) :
    2 ≤ (stockSets funds).length ∧
    r = ⟨overlapPct (numerator (stockSets funds)) (denominator (stockSets funds)),
         tierOf (overlapPct (numerator (stockSets funds)) (denominator (stockSets funds))),
         commonStocks (stockSets funds)⟩ := by
  by_cases hl : (stockSets funds).length < 2
  · rw [compare_insufficient hl] at h
    exact absurd h (by simp)
  · have h2 : 2 ≤ (stockSets funds).length := by omega
    rw [compare_eq_report h2] at h
    cases h
    exact ⟨h2, rfl⟩

theorem overlapPct_of_pos {n d : Nat} (hd : 0 < d) :
    overlapPct n d = 100 * (n : ℚ) / (d : ℚ) := by
  unfold overlapPct
  rw [if_pos hd]
  ring

@[simp] theorem overlapPct_zero (n : Nat) : overlapPct n 0 = 0 := by
  simp [overlapPct]

theorem numerator_eq_specNumerator (sets : List (Finset StockName)) :
    numerator sets = specNumerator sets := by
  rw [numerator_eq]
  unfold specNumerator
  congr 1
  apply List.map_congr_left
  intro i _
  rw [specOverlap, unionList_map_inter]

theorem stockSets_filter (funds : List (List StockName)) :
    stockSets (funds.filter (fun m => !m.isEmpty)) = stockSets funds := by
  unfold stockSets
  rw [List.filter_filter]
  simp

theorem filterMap_firstCell (rows : List (List StockName)) :
    rows.filterMap (fun row => match row with
      | [] => none
      | c :: _ => some (pyStrip c)) =
    (rows.filter (fun row => !row.isEmpty)).map (fun row => pyStrip (row.headD [])) := by
  induction rows with
  | nil => rfl
  | cons r t ih =>
    cases r with
    | nil => simpa [List.filterMap_cons, List.filter_cons] using ih
    | cons c cs => simpa [List.filterMap_cons, List.filter_cons] using ih

/-! ## Evaluation of the sample data -/

theorem sample_eval : compare_multiple_funds sampleFunds = .report sampleReport := by
  have h2 : ¬ ((stockSets sampleFunds).length < 2) := by decide
  have hn : numerator (stockSets sampleFunds) = 5 := by decide
  have hd : denominator (stockSets sampleFunds) = 9 := by decide
  have hc : commonStocks (stockSets sampleFunds) = {['Y'], ['Z']} := by decide
  have hp : overlapPct 5 9 = (500 : ℚ) / 9 := by
    rw [overlapPct_of_pos (by norm_num)]
    norm_num
  have ht : tierOf ((500 : ℚ) / 9) = "Low" := by
    unfold tierOf
    rw [if_pos (by norm_num)]
  unfold compare_multiple_funds
  rw [if_neg h2, hn, hd, hc, hp]
  simp only [ht, sampleReport]

theorem blank_eval : compare_multiple_funds blankFunds = .report ⟨100, "Low", ∅⟩ := by
  have h2 : ¬ ((stockSets blankFunds).length < 2) := by decide
  have hn : numerator (stockSets blankFunds) = 2 := by decide
  have hd : denominator (stockSets blankFunds) = 2 := by decide
  have hc : commonStocks (stockSets blankFunds) = ∅ := by decide
  have hp : overlapPct 2 2 = (100 : ℚ) := by
    rw [overlapPct_of_pos (by norm_num)]
    norm_num
  have ht : tierOf (100 : ℚ) = "Low" := by
    unfold tierOf
    rw [if_pos (by norm_num)]
  unfold compare_multiple_funds
  rw [if_neg h2, hn, hd, hc, hp]
  simp only [ht]

/-! ## The claims -/

/-- Claim C1: for every input mapping in which at least 2 funds have
non-empty holdings, the engine produces a report whose `overlap_percent`
is `100 * numerator / denominator`, where the numerator is the sum over
retained funds of the size of `O_i = union over j of (S_i ∩ S_j)` and the
denominator is the sum of the set sizes; a zero denominator would give 0
as a defensive fallback. -/
theorem claim_C1 (funds : List (List StockName))
    (h : 2 ≤ (stockSets funds).length) :
    ∃ r, compare_multiple_funds funds = .report r ∧
      r.overlap_percent = 100 * (specNumerator (stockSets funds) : ℚ) /
        (denominator (stockSets funds) : ℚ) ∧
      ∀ n : Nat, overlapPct n 0 = 0 := by
  refine ⟨_, compare_eq_report h, ?_, fun n => overlapPct_zero n⟩
  have hd : 0 < denominator (stockSets funds) :=
    denominator_pos (by omega) (fun S hS => stockSets_nonempty hS)
  show overlapPct (numerator (stockSets funds)) (denominator (stockSets funds)) = _
  rw [overlapPct_of_pos hd, numerator_eq_specNumerator]

/-- Witness for C1: the spec's end-to-end example (numerator 5,
denominator 9, overlap 500/9). -/
theorem claim_C1_witness :
    2 ≤ (stockSets sampleFunds).length ∧
    (∃ r, compare_multiple_funds sampleFunds = .report r ∧
      r.overlap_percent = 100 * (specNumerator (stockSets sampleFunds) : ℚ) /
        (denominator (stockSets sampleFunds) : ℚ) ∧
      ∀ n : Nat, overlapPct n 0 = 0) :=
  ⟨by decide, claim_C1 sampleFunds (by decide)⟩

/-- Claim C2: the engine first discards funds with empty holdings (its
result only depends on the non-empty ones), fails with the
insufficient-data warning when fewer than 2 non-empty sets remain, and in
particular one non-empty plus one empty fund yields that warning. -/
theorem claim_C2 (funds : List (List StockName)) (l : List StockName)
    (hl : l ≠ []) :
    compare_multiple_funds funds
        = compare_multiple_funds (funds.filter (fun m => !m.isEmpty)) ∧
    ((stockSets funds).length < 2 →
      compare_multiple_funds funds = .insufficientData) ∧
    compare_multiple_funds [l, []] = .insufficientData := by
  refine ⟨?_, fun h => compare_insufficient h, ?_⟩
  · unfold compare_multiple_funds
    rw [stockSets_filter]
  · apply compare_insufficient
    have hle : l.isEmpty = false := by
      cases l with
      | nil => exact absurd rfl hl
      | cons a t => rfl
    simp [stockSets, List.filter_cons, hle]

/-- Witness for C2 at the sample funds and the one-stock fund `["a"]`. -/
theorem claim_C2_witness :
    ([['a']] : List StockName) ≠ [] ∧
    (compare_multiple_funds sampleFunds
        = compare_multiple_funds (sampleFunds.filter (fun m => !m.isEmpty)) ∧
     ((stockSets sampleFunds).length < 2 →
       compare_multiple_funds sampleFunds = .insufficientData) ∧
     compare_multiple_funds [[['a']], []] = .insufficientData) :=
  ⟨by decide, claim_C2 sampleFunds [['a']] (by decide)⟩

/-- Claim C3: the tier is "Low" iff the overlap percentage is at least 40,
"Medium" iff it is in [20, 40), and "High" iff it is below 20; boundaries
are inclusive on the lower bound, with 40 → "Low", 39.999 → "Medium",
20 → "Medium", 19.999 → "High"; and the tier a report carries is exactly
the tier of its overlap percentage. -/
theorem claim_C3 :
    (∀ p : ℚ, (tierOf p = "Low" ↔ 40 ≤ p) ∧
      (tierOf p = "Medium" ↔ 20 ≤ p ∧ p < 40) ∧
      (tierOf p = "High" ↔ p < 20)) ∧
    tierOf 40 = "Low" ∧ tierOf ((39999 : ℚ) / 1000) = "Medium" ∧
    tierOf 20 = "Medium" ∧ tierOf ((19999 : ℚ) / 1000) = "High" ∧
    (∀ (funds : List (List StockName)) (r : OverlapReport),
      compare_multiple_funds funds = .report r →
        r.tier = tierOf r.overlap_percent) := by
  refine ⟨?_, ?_, ?_, ?_, ?_, ?_⟩
  · intro p
    unfold tierOf
    by_cases h1 : p ≥ 40
    · rw [if_pos h1]
      refine ⟨⟨fun _ => h1, fun _ => rfl⟩, ?_, ?_⟩
      · constructor
        · intro h; exact absurd h (by decide)
        · rintro ⟨_, hlt⟩; linarith
      · constructor
        · intro h; exact absurd h (by decide)
        · intro hlt; linarith
    · rw [if_neg h1]
      by_cases h2 : p ≥ 20
      · rw [if_pos h2]
        refine ⟨?_, ⟨fun _ => ⟨h2, by linarith [not_le.mp h1]⟩, fun _ => rfl⟩, ?_⟩
        · constructor
          · intro h; exact absurd h (by decide)
          · intro h40; exact absurd h40 h1
        · constructor
          · intro h; exact absurd h (by decide)
          · intro hlt; linarith
      · rw [if_neg h2]
        refine ⟨?_, ?_, ⟨fun _ => by linarith [not_le.mp h2], fun _ => rfl⟩⟩
        · constructor
          · intro h; exact absurd h (by decide)
          · intro h40; exact absurd h40 h1
        · constructor
          · intro h; exact absurd h (by decide)
          · rintro ⟨h20, _⟩; exact absurd h20 h2
  · unfold tierOf
    rw [if_pos (by norm_num)]
  · unfold tierOf
    rw [if_neg (by norm_num), if_pos (by norm_num)]
  · unfold tierOf
    rw [if_neg (by norm_num), if_pos (by norm_num)]
  · unfold tierOf
    rw [if_neg (by norm_num), if_neg (by norm_num)]
  · intro funds r h
    obtain ⟨_, rfl⟩ := compare_report_inv h
    rfl

/-- Witness for C3's report-tier conjunct at the sample funds. -/
theorem claim_C3_witness :
    compare_multiple_funds sampleFunds = .report sampleReport ∧
    sampleReport.tier = tierOf sampleReport.overlap_percent :=
  ⟨sample_eval, claim_C3.2.2.2.2.2 sampleFunds sampleReport sample_eval⟩

/-- Claim C4: on exactly two non-empty funds the overlap percentage is the
Dice-style `100 * |S1 ∩ S2| / ((|S1| + |S2|) / 2)`. -/
theorem claim_C4 (l1 l2 : List StockName) (h1 : l1 ≠ []) (h2 : l2 ≠ []) :
    ∃ r, compare_multiple_funds [l1, l2] = .report r ∧
      r.overlap_percent = 100 * ((l1.toFinset ∩ l2.toFinset).card : ℚ) /
        (((l1.toFinset.card : ℚ) + (l2.toFinset.card : ℚ)) / 2) := by
  have he1 : l1.isEmpty = false := by
    cases l1 with
    | nil => exact absurd rfl h1
    | cons a t => rfl
  have he2 : l2.isEmpty = false := by
    cases l2 with
    | nil => exact absurd rfl h2
    | cons a t => rfl
  have hsets : stockSets [l1, l2] = [l1.toFinset, l2.toFinset] := by
    simp [stockSets, List.filter_cons, he1, he2]
  have hlen : 2 ≤ (stockSets [l1, l2]).length := by rw [hsets]; exact le_refl 2
  refine ⟨_, compare_eq_report hlen, ?_⟩
  show overlapPct (numerator (stockSets [l1, l2])) (denominator (stockSets [l1, l2])) = _
  rw [hsets]
  have hnum : numerator [l1.toFinset, l2.toFinset]
      = (l1.toFinset ∩ l2.toFinset).card + (l1.toFinset ∩ l2.toFinset).card := by
    rw [numerator_eq]
    simp [List.range_succ, otherSets, Finset.inter_comm l2.toFinset l1.toFinset]
  have hden : denominator [l1.toFinset, l2.toFinset]
      = l1.toFinset.card + l2.toFinset.card := by
    rw [denominator_eq]
    simp
  have hc1 : 0 < l1.toFinset.card := by
    apply Finset.card_pos.mpr
    cases l1 with
    | nil => exact absurd rfl h1
    | cons a t => exact ⟨a, by simp⟩
  have hdpos : 0 < l1.toFinset.card + l2.toFinset.card := by omega
  rw [hnum, hden, overlapPct_of_pos hdpos]
  have hQ : ((l1.toFinset.card : ℚ) + (l2.toFinset.card : ℚ)) ≠ 0 := by
    have : (0 : ℚ) < (l1.toFinset.card : ℚ) + (l2.toFinset.card : ℚ) := by
      exact_mod_cast hdpos
    linarith
  push_cast
  field_simp
  ring

/-- Witness for C4 at funds A and B of the spec's example. -/
theorem claim_C4_witness :
    sampleA ≠ [] ∧ sampleB ≠ [] ∧
    (∃ r, compare_multiple_funds [sampleA, sampleB] = .report r ∧
      r.overlap_percent = 100 * ((sampleA.toFinset ∩ sampleB.toFinset).card : ℚ) /
        (((sampleA.toFinset.card : ℚ) + (sampleB.toFinset.card : ℚ)) / 2)) :=
  ⟨by decide, by decide, claim_C4 sampleA sampleB (by decide) (by decide)⟩

/-- Counterexample to C5 as stated: in `blankFunds` the whitespace-only
stock name " " has cross-fund frequency 2, yet the produced report's
`shared_stocks` is empty (the code keeps only stocks whose stripped name
is truthy). -/
theorem claim_C5_counterexample :
    compare_multiple_funds blankFunds = .report ⟨100, "Low", ∅⟩ ∧
    1 < (allStocks (stockSets blankFunds)).count [' '] :=
  ⟨blank_eval, by decide⟩

/-- Claim C5 (amended): for every produced report, `shared_stocks` is
exactly the set of whitespace-stripped forms of stock names whose
cross-fund frequency is at least 2 and whose stripped form is non-empty. -/
theorem claim_C5 (funds : List (List StockName)) (r : OverlapReport)
    (h : compare_multiple_funds funds = .report r) (x : StockName) :
    x ∈ r.shared_stocks ↔
      ∃ s, 1 < (allStocks (stockSets funds)).count s ∧
        pyStrip s ≠ [] ∧ pyStrip s = x := by
  obtain ⟨_, rfl⟩ := compare_report_inv h
  exact mem_commonStocks

/-- Witness for C5 (amended) at the sample funds and the stock Z. -/
theorem claim_C5_witness :
    compare_multiple_funds sampleFunds = .report sampleReport ∧
    (['Z'] ∈ sampleReport.shared_stocks ↔
      ∃ s, 1 < (allStocks (stockSets sampleFunds)).count s ∧
        pyStrip s ≠ [] ∧ pyStrip s = ['Z']) :=
  ⟨sample_eval, claim_C5 sampleFunds sampleReport sample_eval ['Z']⟩

/-- Claim C6: on a fetched document with at least five tables, the fetch
takes the fifth table (index 4), skips its header row, and returns, in row
order, the stripped first-cell text of every remaining row that has at
least one cell; cell-less rows are skipped. -/
theorem claim_C6 (st : Nat) (tables : List HtmlTable)
    (hst : 200 ≤ st ∧ st < 300) (ht : 5 ≤ tables.length) :
    get_holdings_from_moneycontrol (.success st tables) =
      .ok ((((tables.getD 4 []).drop 1).filter (fun row => !row.isEmpty)).map
        (fun row => pyStrip (row.headD []))) := by
  have hm : get_holdings_from_moneycontrol (.success st tables)
      = if 400 ≤ st ∧ st < 600
        then .fetchError ("HTTP error " ++ toString st)
        else parseTables tables := rfl
  rw [hm, if_neg (by omega)]
  unfold parseTables
  rw [if_neg (by omega), filterMap_firstCell]

/-- Witness for C6 at a five-table document. -/
theorem claim_C6_witness :
    (200 ≤ 200 ∧ 200 < 300) ∧ 5 ≤ sampleTables.length ∧
    get_holdings_from_moneycontrol (.success 200 sampleTables) =
      .ok ((((sampleTables.getD 4 []).drop 1).filter (fun row => !row.isEmpty)).map
        (fun row => pyStrip (row.headD []))) :=
  ⟨by decide, by decide, claim_C6 200 sampleTables (by decide) (by decide)⟩

/-- Claim C7: on a fetched document with fewer than five tables, the fetch
signals the schema warning ("Expected portfolio table not found.") and
returns the empty sequence instead of crashing. -/
theorem claim_C7 (st : Nat) (tables : List HtmlTable)
    (hst : 200 ≤ st ∧ st < 300) (ht : tables.length < 5) :
    get_holdings_from_moneycontrol (.success st tables) = .schemaError ∧
    fetchedHoldings (.success st tables) = [] := by
  have h : get_holdings_from_moneycontrol (.success st tables) = .schemaError := by
    have hm : get_holdings_from_moneycontrol (.success st tables)
        = if 400 ≤ st ∧ st < 600
          then .fetchError ("HTTP error " ++ toString st)
          else parseTables tables := rfl
    rw [hm, if_neg (by omega)]
    unfold parseTables
    rw [if_pos ht]
  refine ⟨h, ?_⟩
  unfold fetchedHoldings
  rw [h]

/-- Witness for C7 at a three-table document. -/
theorem claim_C7_witness :
    (200 ≤ 200 ∧ 200 < 300) ∧ ([[], [], []] : List HtmlTable).length < 5 ∧
    (get_holdings_from_moneycontrol (.success 200 [[], [], []]) = .schemaError ∧
     fetchedHoldings (.success 200 [[], [], []]) = []) :=
  ⟨by decide, by decide, claim_C7 200 [[], [], []] (by decide) (by decide)⟩

/-- Counterexample to C8 as stated: a 304 response is non-2xx, yet
`raise_for_status` does not raise for it, so no `FetchError` is signalled
— the body proceeds to parsing (here ending in the schema warning). -/
theorem claim_C8_counterexample :
    ¬ (200 ≤ 304 ∧ 304 < 300) ∧
    get_holdings_from_moneycontrol (.success 304 []) = .schemaError ∧
    isFetchErrorB (get_holdings_from_moneycontrol (.success 304 [])) = false := by
  decide

/-- Claim C8 (amended): for every fetch that encounters a transport
failure or a 4xx/5xx status (the statuses `raise_for_status` raises for),
a `FetchError` carrying the cause is signalled and caught at the fetch
boundary: the fund contributes an empty holdings sequence, and the
comparison still produces a report whenever at least 2 funds end up with
non-empty holdings. -/
theorem claim_C8 (c : String) (st : Nat) (tables : List HtmlTable)
    (resps : List HttpResponse)
    (hst : 400 ≤ st ∧ st < 600)
    (hok : 2 ≤ (stockSets (resps.map fetchedHoldings)).length) :
    get_holdings_from_moneycontrol (.failure c) = .fetchError c ∧
    get_holdings_from_moneycontrol (.success st tables)
        = .fetchError ("HTTP error " ++ toString st) ∧
    fetchedHoldings (.failure c) = [] ∧
    fetchedHoldings (.success st tables) = [] ∧
    ∃ r, compareFromResponses resps = .report r := by
  have h1 : get_holdings_from_moneycontrol (.failure c) = .fetchError c := rfl
  have h2 : get_holdings_from_moneycontrol (.success st tables)
      = .fetchError ("HTTP error " ++ toString st) := by
    have hm : get_holdings_from_moneycontrol (.success st tables)
        = if 400 ≤ st ∧ st < 600
          then .fetchError ("HTTP error " ++ toString st)
          else parseTables tables := rfl
    rw [hm, if_pos hst]
  refine ⟨h1, h2, ?_, ?_, ?_⟩
  · unfold fetchedHoldings
    rw [h1]
  · unfold fetchedHoldings
    rw [h2]
  · exact ⟨_, compare_eq_report hok⟩

/-- Witness for C8 (amended): a dead connection, a 404, and a response
list in which two fetches succeed. -/
theorem claim_C8_witness :
    (400 ≤ 404 ∧ 404 < 600) ∧
    2 ≤ (stockSets (sampleResponses.map fetchedHoldings)).length ∧
    (get_holdings_from_moneycontrol (.failure "connection refused")
        = .fetchError "connection refused" ∧
     get_holdings_from_moneycontrol (.success 404 [])
        = .fetchError ("HTTP error " ++ toString 404) ∧
     fetchedHoldings (.failure "connection refused") = [] ∧
     fetchedHoldings (.success 404 []) = [] ∧
     ∃ r, compareFromResponses sampleResponses = .report r) :=
  ⟨by decide, by decide,
    claim_C8 "connection refused" 404 [] sampleResponses (by decide) (by decide)⟩

/-- Claim C9: the comparison result is invariant under permutation of the
input funds; in particular the overlap percentage and the tier are. -/
theorem claim_C9 (f1 f2 : List (List StockName)) (h : f1.Perm f2) :
    compare_multiple_funds f1 = compare_multiple_funds f2 := by
  have hsets : (stockSets f1).Perm (stockSets f2) := by
    unfold stockSets
    exact (h.filter (fun m => !m.isEmpty)).map List.toFinset
  simp only [compare_multiple_funds, hsets.length_eq, numerator_perm hsets,
    denominator_perm hsets, commonStocks_perm hsets]

/-- Witness for C9 at a rotation of the sample funds. -/
theorem claim_C9_witness :
    sampleFunds.Perm [sampleB, sampleC, sampleA] ∧
    compare_multiple_funds sampleFunds
      = compare_multiple_funds [sampleB, sampleC, sampleA] :=
  ⟨by decide, claim_C9 sampleFunds [sampleB, sampleC, sampleA] (by decide)⟩

/-- Claim C10: every stock name a produced report lists in `shared_stocks`
is whitespace-stripped and non-empty (names stripping to the empty string
are never listed). -/
theorem claim_C10 (funds : List (List StockName)) (r : OverlapReport)
    (h : compare_multiple_funds funds = .report r) :
    ∀ x ∈ r.shared_stocks, pyStrip x = x ∧ x ≠ [] := by
  obtain ⟨_, rfl⟩ := compare_report_inv h
  intro x hx
  obtain ⟨s, _, hne, rfl⟩ := mem_commonStocks.mp hx
  exact ⟨pyStrip_idem s, hne⟩

/-- Witness for C10 at the sample funds and the listed stock Z. -/
theorem claim_C10_witness :
    compare_multiple_funds sampleFunds = .report sampleReport ∧
    (pyStrip ['Z'] = ['Z'] ∧ (['Z'] : StockName) ≠ []) :=
  ⟨sample_eval,
    claim_C10 sampleFunds sampleReport sample_eval ['Z'] (by decide)⟩

end MF
